import Mathlib

/-! event-router: consumer run-loop and configuration checks

A shallow embedding of

* `kafka/clickstream/clickstream_consumer.go` (`NewConsumer`, `Consumer.Run`) and
* `config/config.go` (`setDefaults`, `verifyRequiredEnvVars`, `Initalize`),

followed by the properties proved about them.

`Consumer.Run` talks to the outside world (logger, signal channel, Kafka client,
goroutines).  It is embedded as a function from the sequence of inputs its `select`
statement picks, to the trace of effects it performs, in program order.
-/

namespace EventRouter

/-! ## Data model of `clickstream_consumer.go` -/

/-- A byte slice (`[]byte`). -/
abbrev Bytes := List (Fin 256)

/-- The part of `confluent.TopicPartition` that identifies a partition. -/
structure TopicPartition where
  Topic : String
  Partition : Int
  deriving DecidableEq, Repr

/-- The two signals registered with `signal.Notify(sigchan, SIGINT, SIGTERM)`; no other
signal can arrive on `sigchan`. -/
inductive Signal
  | SIGINT
  | SIGTERM
  deriving DecidableEq, Repr

/-- Values received from `consumer.Events()`, by dynamic type.  `Message` keeps the two
fields `Run` reads (`e.Value`, `e.Key`).  `Other` stands for every event type that has
no case in the type switch of `Run` (for instance `OffsetsCommitted`). -/
inductive Event
  | AssignedPartitions (Partitions : List TopicPartition)
  | RevokedPartitions (Partitions : List TopicPartition)
  | Message (Value Key : Bytes)
  | PartitionEOF (tp : TopicPartition)
  | Error (text : String)
  | Other
  deriving DecidableEq, Repr

/-- What one `select` of the run-loop picks: a value from `sigchan` or a value from
`consumer.Events()`. -/
inductive Selected
  | signal (sig : Signal)
  | event (ev : Event)
  deriving DecidableEq, Repr

/-- The `confluent.ConfigMap` literal passed to `confluent.NewConsumer`, one field per
key, in source order. -/
structure ConfigMap where
  bootstrapServers : String
  groupId : String
  sessionTimeoutMs : Nat
  goEventsChannelEnable : Bool
  goApplicationRebalanceEnable : Bool
  enableAutoCommit : Bool
  autoOffsetReset : String
  deriving DecidableEq, Repr

/-- `ConsumerOptions`; `H` is the type of (non-nil) `kafka.MessageHandler` references. -/
structure ConsumerOptions (H : Type) where
  BootstrapServers : String
  GroupID : String
  Topics : List String
  MessageHandler : H

/-- `Consumer`: the options it was built from and the handler copied out of them. -/
structure Consumer (H : Type) where
  options : ConsumerOptions H
  messageHandler : H

/-- Log levels used by `Run`. -/
inductive Level
  | Debug
  | Info
  | Error
  deriving DecidableEq, Repr

/-- Arguments of a log call. -/
inductive LogArg
  | str (s : String)
  | strs (ss : List String)
  | err (e : String)
  | sig (s : Signal)
  | ev (e : Event)
  deriving DecidableEq, Repr

/-- Effects of `Run`, one constructor per kind of call it makes on a collaborator.
`log` is a call on `logger`: `format` is the string literal of the call (`%v` for
`logger.Error(x)`, which prints its one argument), `args` are the values printed with it
(for the `Debug` call, the values of its three fields).  `recvSignal` and `recvEvent` are
the two receive operations of the `select`.  `goHandleMessage` and
`goMessagesConsumedInc` are the two `go` statements of the `Message` case: the effect is
the launch of the goroutine. -/
inductive Effect (H : Type)
  | log (level : Level) (format : String) (args : List LogArg)
  | signalNotify (sigs : List Signal)
  | NewConsumer (conf : ConfigMap)
  | SubscribeTopics (topics : List String)
  | recvSignal (sig : Signal)
  | recvEvent (ev : Event)
  | Assign (partitions : List TopicPartition)
  | Unassign
  | goHandleMessage (handler : H) (value key : Bytes)
  | goMessagesConsumedInc
  | Close

/-- The Kafka client library as seen by `Run` during setup: the error (if any) returned
by `confluent.NewConsumer` for a configuration, and by `SubscribeTopics` for a topic
list.  `none` is Go's `nil` error. -/
structure Client where
  newConsumer : ConfigMap → Option String
  subscribeTopics : List String → Option String

/-! ## `NewConsumer` -/

/-- Result of `NewConsumer`: the returned pair and the effects performed on the client
library while building it. -/
structure NewConsumerResult (H : Type) where
  consumer : Consumer H
  err : Option String
  effects : List (Effect H)

/-- `NewConsumer(opts)`.  The `cluster.NewConfig()` value it builds is local and dropped;
the function returns the struct literal and a `nil` error, and calls nothing else. -/
def NewConsumer {H : Type} (opts : ConsumerOptions H) : NewConsumerResult H :=
  { consumer := { options := opts, messageHandler := opts.MessageHandler }
    err := none
    effects := [] }

/-! ## `Consumer.Run` -/

/-- The configuration map built by `Run` from the options. -/
def runConfig {H : Type} (c : Consumer H) : ConfigMap :=
  { bootstrapServers := c.options.BootstrapServers
    groupId := c.options.GroupID
    sessionTimeoutMs := 6000
    goEventsChannelEnable := true
    goApplicationRebalanceEnable := true
    enableAutoCommit := true
    autoOffsetReset := "earliest" }

/-- The type switch on a received event: the effects of its matching case. -/
def dispatch {H : Type} (c : Consumer H) : Event → List (Effect H)
  | .AssignedPartitions ps =>
      [.log .Info "Assigning Partition %v" [.ev (.AssignedPartitions ps)], .Assign ps]
  | .RevokedPartitions ps =>
      [.log .Info "Revoking Partition %v" [.ev (.RevokedPartitions ps)], .Unassign]
  | .Message v k =>
      [.goHandleMessage c.messageHandler v k, .goMessagesConsumedInc]
  | .PartitionEOF tp =>
      [.log .Info "Reached %v" [.ev (.PartitionEOF tp)]]
  | .Error text =>
      [.log .Error "%v" [.err text]]
  | .Other => []

/-- State of the run-loop: the `run` flag and the effects performed so far. -/
structure LoopState (H : Type) where
  run : Bool
  trace : List (Effect H)

/-- One iteration of the loop body: the `select` with its two cases. -/
def selectStep {H : Type} (c : Consumer H) (st : LoopState H) : Selected → LoopState H
  | .signal sig =>
      { run := false
        trace := st.trace ++
          [.recvSignal sig, .log .Info "Consumer caught signal %v: terminating" [.sig sig]] }
  | .event ev =>
      { run := st.run
        trace := st.trace ++ (.recvEvent ev :: dispatch c ev) }

/-- The loop `for run == true { select ... }` over the inputs still to come.  It returns
the state at which it stops and the inputs it never selected.  It stops either because
`run` is false (loop exit) or because no input is left (the `select` blocks). -/
def eventLoop {H : Type} (c : Consumer H) : LoopState H → List Selected →
    LoopState H × List Selected
  | st, [] => (st, [])
  | st, i :: rest =>
      if st.run = true then eventLoop c (selectStep c st i) rest else (st, i :: rest)

/-- How a run over a finite input sequence ends: `Run` returned, or it is blocked in
`select` waiting for an input. -/
inductive Outcome
  | returned
  | blocked
  deriving DecidableEq, Repr

/-- Result of `Run`: the effect trace, how it ended, and the inputs never selected. -/
structure RunResult (H : Type) where
  trace : List (Effect H)
  outcome : Outcome
  pending : List Selected

/-- The effects of `Run` up to and including the call of `confluent.NewConsumer`. -/
def setupTrace {H : Type} (c : Consumer H) : List (Effect H) :=
  [ .log .Info "Starting Kafka Consumer" [],
    .log .Debug "Consumer Options"
      [.str c.options.BootstrapServers, .str c.options.GroupID, .strs c.options.Topics],
    .signalNotify [.SIGINT, .SIGTERM],
    .NewConsumer (runConfig c) ]

/-- `(c *Consumer) Run()`. -/
def Run {H : Type} (c : Consumer H) (client : Client) (inputs : List Selected) :
    RunResult H :=
  match client.newConsumer (runConfig c) with
  | some err =>
      { trace := setupTrace c ++ [.log .Error "%v" [.err err]]
        outcome := .returned
        pending := inputs }
  | none =>
      match client.subscribeTopics c.options.Topics with
      | some err =>
          { trace := setupTrace c ++
              [.SubscribeTopics c.options.Topics, .log .Error "%v" [.err err]]
            outcome := .returned
            pending := inputs }
      | none =>
          let r := eventLoop c
            { run := true, trace := setupTrace c ++ [.SubscribeTopics c.options.Topics] }
            inputs
          if r.1.run = true then
            { trace := r.1.trace, outcome := .blocked, pending := r.2 }
          else
            { trace := r.1.trace ++ [.Close, .log .Info "Consumer Closed" []]
              outcome := .returned
              pending := r.2 }

/-! ## Observations on effect traces -/

/-- Calls made on the client object: `SubscribeTopics`, `Assign`, `Unassign`, `Close`. -/
def Effect.isClientCall {H : Type} : Effect H → Bool
  | .SubscribeTopics _ => true
  | .Assign _ => true
  | .Unassign => true
  | .Close => true
  | _ => false

/-- Recognises a call of `consumer.Close()`. -/
def Effect.isClose {H : Type} : Effect H → Bool
  | .Close => true
  | _ => false

/-- Recognises a call of `consumer.Unassign()`. -/
def Effect.isUnassign {H : Type} : Effect H → Bool
  | .Unassign => true
  | _ => false

/-- Recognises a launch of `prom.MessagesConsumed.Inc()`. -/
def Effect.isInc {H : Type} : Effect H → Bool
  | .goMessagesConsumedInc => true
  | _ => false

/-- The partition list an effect passes to the client, when it passes one. -/
def Effect.partitionsArg {H : Type} : Effect H → Option (List TopicPartition)
  | .Assign ps => some ps
  | _ => none

/-- The configuration of an effect that creates a client. -/
def Effect.newConsumerArg {H : Type} : Effect H → Option ConfigMap
  | .NewConsumer conf => some conf
  | _ => none

/-- The topic list of an effect that subscribes. -/
def Effect.subscribeArg {H : Type} : Effect H → Option (List String)
  | .SubscribeTopics ts => some ts
  | _ => none

/-- The event of an effect that receives from `consumer.Events()`. -/
def Effect.eventArg {H : Type} : Effect H → Option Event
  | .recvEvent ev => some ev
  | _ => none

/-- The signal of an effect that receives from `sigchan`. -/
def Effect.signalArg {H : Type} : Effect H → Option Signal
  | .recvSignal sig => some sig
  | _ => none

/-- Handler, value and key of an effect that launches `HandleMessage`. -/
def Effect.handleArg {H : Type} : Effect H → Option (H × Bytes × Bytes)
  | .goHandleMessage h v k => some (h, v, k)
  | _ => none

/-- The client calls of a trace, in order. -/
def clientCalls {H : Type} (t : List (Effect H)) : List (Effect H) :=
  t.filter Effect.isClientCall

/-- The arguments of the `Assign` calls of a trace, in order. -/
def assignCalls {H : Type} (t : List (Effect H)) : List (List TopicPartition) :=
  t.filterMap Effect.partitionsArg

/-- The arguments of the `confluent.NewConsumer` calls of a trace, in order. -/
def newConsumerCalls {H : Type} (t : List (Effect H)) : List ConfigMap :=
  t.filterMap Effect.newConsumerArg

/-- The arguments of the `SubscribeTopics` calls of a trace, in order. -/
def subscribeCalls {H : Type} (t : List (Effect H)) : List (List String) :=
  t.filterMap Effect.subscribeArg

/-- The events received from the client, in order. -/
def receivedEvents {H : Type} (t : List (Effect H)) : List Event :=
  t.filterMap Effect.eventArg

/-- The signals received, in order. -/
def receivedSignals {H : Type} (t : List (Effect H)) : List Signal :=
  t.filterMap Effect.signalArg

/-- The launched `HandleMessage` calls of a trace, in order. -/
def handleCalls {H : Type} (t : List (Effect H)) : List (H × Bytes × Bytes) :=
  t.filterMap Effect.handleArg

/-- Number of `Close` calls in a trace. -/
def closeCount {H : Type} (t : List (Effect H)) : Nat :=
  t.countP Effect.isClose

/-- Number of `Unassign` calls in a trace. -/
def unassignCount {H : Type} (t : List (Effect H)) : Nat :=
  t.countP Effect.isUnassign

/-- Number of launched metric increments in a trace. -/
def incCount {H : Type} (t : List (Effect H)) : Nat :=
  t.countP Effect.isInc

/-- Value and key of a `Message` event. -/
def Event.messageArg : Event → Option (Bytes × Bytes)
  | .Message v k => some (v, k)
  | _ => none

/-- Partitions of an `AssignedPartitions` event. -/
def Event.assignedArg : Event → Option (List TopicPartition)
  | .AssignedPartitions ps => some ps
  | _ => none

/-- The call the type switch of `Run` makes on the client for an event: `Assign` with
the event's partitions in the `AssignedPartitions` case, `Unassign()` in the
`RevokedPartitions` case, none in the other cases. -/
def Event.clientCall {H : Type} : Event → Option (Effect H)
  | .AssignedPartitions ps => some (.Assign ps)
  | .RevokedPartitions _ => some .Unassign
  | _ => none

/-- Recognises a `RevokedPartitions` event. -/
def Event.isRevoked : Event → Bool
  | .RevokedPartitions _ => true
  | _ => false

/-- Recognises a `Message` event. -/
def Event.isMessage : Event → Bool
  | .Message _ _ => true
  | _ => false

/-- Recognises a termination signal among the selected inputs. -/
def Selected.isSignal : Selected → Bool
  | .signal _ => true
  | .event _ => false

/-- The client events of an input sequence that come before its first signal. -/
def pulledEvents : List Selected → List Event
  | [] => []
  | .signal _ :: _ => []
  | .event ev :: rest => ev :: pulledEvents rest

/-- The inputs that follow the first signal of an input sequence. -/
def afterSignal : List Selected → List Selected
  | [] => []
  | .signal _ :: rest => rest
  | .event _ :: rest => afterSignal rest

/-- Closed form of the effects of the loop over an input sequence, started with `run`
true: everything up to and including the first signal. -/
def loopEffects {H : Type} (c : Consumer H) : List Selected → List (Effect H)
  | [] => []
  | .signal sig :: _ =>
      [.recvSignal sig, .log .Info "Consumer caught signal %v: terminating" [.sig sig]]
  | .event ev :: rest => .recvEvent ev :: (dispatch c ev ++ loopEffects c rest)

end EventRouter

namespace EventRouter

/-! ## Concrete inputs -/

/-- Options of the scenario: one topic, group `g1`. -/
def scenarioOptions : ConsumerOptions String :=
  { BootstrapServers := "broker:9092", GroupID := "g1", Topics := ["clicks"],
    MessageHandler := "handler" }

/-- The consumer built from `scenarioOptions`. -/
def scenarioConsumer : Consumer String := (NewConsumer scenarioOptions).consumer

/-- A client library whose setup calls succeed. -/
def okClient : Client :=
  { newConsumer := fun _ => none, subscribeTopics := fun _ => none }

/-- A client library whose `NewConsumer` fails. -/
def noBrokerClient : Client :=
  { newConsumer := fun _ => some "no brokers", subscribeTopics := fun _ => none }

/-- A client library whose `SubscribeTopics` fails. -/
def noTopicClient : Client :=
  { newConsumer := fun _ => none, subscribeTopics := fun _ => some "unknown topic" }

/-- Partition 0 of topic `clicks`. -/
def p0 : TopicPartition := { Topic := "clicks", Partition := 0 }

/-- Partition 1 of topic `clicks`. -/
def p1 : TopicPartition := { Topic := "clicks", Partition := 1 }

/-- The scenario: assignment, two messages, revocation, SIGTERM, and one more message
that arrives after the signal. -/
def scenarioInputs : List Selected :=
  [ Selected.event (Event.AssignedPartitions [p0, p1]),
    Selected.event (Event.Message [97] [107, 49]),
    Selected.event (Event.Message [98] [107, 50]),
    Selected.event (Event.RevokedPartitions [p0, p1]),
    Selected.signal Signal.SIGTERM,
    Selected.event (Event.Message [99] [107, 51]) ]

end EventRouter

namespace EventRouter.Config

/-! ## `config/config.go` -/

/-- Environment variable prefix. -/
def Prefix : String := "ER"

def Debug : String := "DEBUG"
def BootstrapServers : String := "BOOTSTRAP_SERVERS"
def ServePort : String := "SERVE_PORT"
def KafkaGroupID : String := "KAFKA_GROUP_ID"
def KafkaIngestionTopic : String := "KAFKA_INGESTION_TOPIC"
def SSEURL : String := "SSE_URL"
def KafkaProducerFlushTimeoutMS : String := "KAFKA_PRODUCER_FLUSH_TIMEOUT_MS"
def KafkaProducerMessageTimeoutMS : String := "KAFKA_PRODUCER_MESSAGE_TIMEOUT_MS"
def MaxRetries : String := "MAX_RETRIES"
def ClickstreamRetryTopic : String := "CLICKSTREAM_RETRY_TOPIC"
def ClickstreamRetryS3Bucket : String := "CLICKSTREAM_RETRY_S3_BUCKET"
def ClickstreamRetryS3PathPrefix : String := "CLICKSTREAM_RETRY_S3_PATH_PREFIX"
def HoustonAPIURL : String := "HOUSTON_API_URL"
def HoustonAPIKey : String := "HOUSTON_API_KEY"
def HoustonUserName : String := "HOUSTON_USERNAME"
def HoustonPassword : String := "HOUSTON_PASSWORD"

/-- Initial value of the package variable `requiredEnvs`. -/
def requiredEnvs : List String :=
  [BootstrapServers, HoustonAPIURL, KafkaIngestionTopic, KafkaGroupID, SSEURL]

/-- The package variable `retryRequiredEnvs`. -/
def retryRequiredEnvs : List String :=
  [ClickstreamRetryTopic, ClickstreamRetryS3Bucket]

/-- `InitOptions`. -/
structure InitOptions where
  EnableRetry : Bool
  deriving DecidableEq, Repr

/-- The process environment, as name/value pairs (`os.Environ()`); the first pair with a
given name is the one looked up. -/
abbrev Environ := List (String × String)

/-- `setDefaults()`: the defaults table it registers, each value as `GetString` renders
it (`false`, `"8080"`, `1000`, `5000`, `2`). -/
def setDefaults : List (String × String) :=
  [ (Debug, "false"),
    (ServePort, "8080"),
    (KafkaProducerFlushTimeoutMS, "1000"),
    (KafkaProducerMessageTimeoutMS, "5000"),
    (MaxRetries, "2") ]

/-- `GetString(cfg)`, that is `viper.GetString` after `SetEnvPrefix(Prefix)`,
`AutomaticEnv()` and `setDefaults()`: the value of the environment variable
`ER_<cfg>` when it is set and not empty, else the registered default, else the empty
string. -/
def GetString (env : Environ) (cfg : String) : String :=
  match env.lookup (Prefix ++ "_" ++ cfg) with
  | some v => if v ≠ "" then v else (setDefaults.lookup cfg).getD ""
  | none => (setDefaults.lookup cfg).getD ""

/-- `GetBool(cfg)`: the setting parsed as `strconv.ParseBool` does, false when it does
not parse. -/
def GetBool (env : Environ) (cfg : String) : Bool :=
  decide (GetString env cfg ∈ ["1", "t", "T", "TRUE", "true", "True"])

/-- Result of `verifyRequiredEnvVars`: the warnings it logs and the error it returns
(`none` is `nil`; `some f` is `fmt.Errorf(f)`). -/
structure VerifyResult where
  warnings : List String
  err : Option String
  deriving DecidableEq, Repr

/-- The loop of `verifyRequiredEnvVars` over `requiredEnvs`: one message appended for
each setting whose string is empty.  `errString` is `pkg.GetRequiredEnvErrorString`. -/
def requiredErrs (errString : String → String → String) (env : Environ) :
    List String → List String → List String
  | errs, [] => errs
  | errs, envVar :: rest =>
      if (GetString env envVar).length = 0 then
        requiredErrs errString env (errs ++ [errString Prefix envVar]) rest
      else
        requiredErrs errString env errs rest

/-- `verifyRequiredEnvVars()`, with the package variable `requiredEnvs` it reads passed
as `required`, and `pkg.GetRequiredEnvErrorString` (not part of these sources) passed as
`errString`. -/
def verifyRequiredEnvVars (errString : String → String → String) (env : Environ)
    (required : List String) : VerifyResult :=
  let errs := requiredErrs errString env [] required
  let errs :=
    if (GetString env HoustonAPIKey).length = 0 ∧
        (GetString env HoustonUserName).length = 0 then
      errs ++ [Prefix ++ "_" ++ HoustonAPIKey ++ " or " ++ Prefix ++ "_" ++ HoustonUserName
        ++ "/" ++ Prefix ++ "_" ++ HoustonPassword ++ " is required"]
    else errs
  let warnings :=
    if (GetString env HoustonAPIKey).length ≠ 0 ∧
        (GetString env HoustonUserName).length ≠ 0 then
      ["Both " ++ Prefix ++ "_" ++ HoustonUserName ++ " and " ++ Prefix ++ "_" ++
        HoustonUserName ++ " provided, using " ++ Prefix ++ "_" ++ HoustonAPIKey]
    else []
  { warnings := warnings
    err := if errs.length ≠ 0 then some (String.intercalate "\n" errs) else none }

/-- The package variables of `config`. -/
structure ConfigState where
  requiredEnvs : List String
  debug : Bool
  deriving DecidableEq, Repr

/-- The package variables at program start. -/
def initialState : ConfigState :=
  { requiredEnvs := requiredEnvs, debug := false }

/-- How `Initalize` ends: `os.Exit(code)` after logging the error, or a normal return
with the updated package variables. -/
inductive InitOutcome
  | osExit (code : Nat) (logged : String)
  | completed (st : ConfigState)
  deriving DecidableEq, Repr

/-- `Initalize(opts)`. -/
def Initalize (errString : String → String → String) (env : Environ) (st : ConfigState)
    (opts : InitOptions) : InitOutcome :=
  let required :=
    if opts.EnableRetry = true then st.requiredEnvs ++ retryRequiredEnvs
    else st.requiredEnvs
  match (verifyRequiredEnvVars errString env required).err with
  | some e => .osExit 1 e
  | none => .completed { requiredEnvs := required, debug := GetBool env Debug }

/-- The error text used for a missing required setting in the concrete inputs below. -/
def sampleErrString (pfx envVar : String) : String :=
  pfx ++ "_" ++ envVar ++ " is required"

/-- An environment with every entry of `requiredEnvs` set, and a Houston user name but
neither an API key nor a password. -/
def userWithoutPasswordEnv : Environ :=
  [ ("ER_BOOTSTRAP_SERVERS", "broker:9092"),
    ("ER_HOUSTON_API_URL", "https://houston.example"),
    ("ER_KAFKA_INGESTION_TOPIC", "clicks"),
    ("ER_KAFKA_GROUP_ID", "g1"),
    ("ER_SSE_URL", "https://sse.example"),
    ("ER_HOUSTON_USERNAME", "admin") ]

/-- An environment with the Houston API key and every entry of `requiredEnvs` set. -/
def completeEnv : Environ :=
  [ ("ER_BOOTSTRAP_SERVERS", "broker:9092"),
    ("ER_HOUSTON_API_URL", "https://houston.example"),
    ("ER_KAFKA_INGESTION_TOPIC", "clicks"),
    ("ER_KAFKA_GROUP_ID", "g1"),
    ("ER_SSE_URL", "https://sse.example"),
    ("ER_HOUSTON_API_KEY", "secret") ]

end EventRouter.Config

namespace EventRouter

/-! ## The run-loop in closed form -/

theorem eventLoop_stopped {H : Type} (c : Consumer H) (t : List (Effect H))
    (ins : List Selected) : eventLoop c ⟨false, t⟩ ins = (⟨false, t⟩, ins) := by
  cases ins <;> simp [eventLoop]

theorem eventLoop_running {H : Type} (c : Consumer H) :
    ∀ (ins : List Selected) (t : List (Effect H)),
      eventLoop c ⟨true, t⟩ ins =
        (⟨!(ins.any Selected.isSignal), t ++ loopEffects c ins⟩, afterSignal ins)
  | [], t => by simp [eventLoop, loopEffects, afterSignal]
  | .signal s :: rest, t => by
      simp [eventLoop, selectStep, eventLoop_stopped, loopEffects, afterSignal,
        Selected.isSignal]
  | .event e :: rest, t => by
      simp [eventLoop, selectStep, eventLoop_running c rest, loopEffects, afterSignal,
        Selected.isSignal]

theorem any_isSignal_iff (ins : List Selected) :
    ins.any Selected.isSignal = true ↔ ∃ s, Selected.signal s ∈ ins := by
  constructor
  · intro h
    obtain ⟨x, hx, hs⟩ := List.any_eq_true.mp h
    cases x with
    | signal s => exact ⟨s, hx⟩
    | event e => simp [Selected.isSignal] at hs
  · rintro ⟨s, hs⟩
    exact List.any_eq_true.mpr ⟨_, hs, rfl⟩

/-- With both setup steps successful, `Run` is the setup, the loop, and (once a signal
was selected) the close. -/
theorem Run_of_setup_ok {H : Type} (c : Consumer H) (client : Client)
    (ins : List Selected)
    (hnew : client.newConsumer (runConfig c) = none)
    (hsub : client.subscribeTopics c.options.Topics = none) :
    Run c client ins =
      { trace := setupTrace c ++ Effect.SubscribeTopics c.options.Topics ::
          (loopEffects c ins ++
            if ins.any Selected.isSignal = true then
              [Effect.Close, Effect.log Level.Info "Consumer Closed" []]
            else [])
        outcome := if ins.any Selected.isSignal = true then Outcome.returned
          else Outcome.blocked
        pending := afterSignal ins } := by
  simp only [Run, hnew, hsub, eventLoop_running]
  cases hs : ins.any Selected.isSignal <;> simp

theorem Run_of_newConsumer_err {H : Type} (c : Consumer H) (client : Client)
    (ins : List Selected) (err : String)
    (hnew : client.newConsumer (runConfig c) = some err) :
    Run c client ins =
      { trace := setupTrace c ++ [Effect.log Level.Error "%v" [LogArg.err err]]
        outcome := Outcome.returned
        pending := ins } := by
  simp only [Run, hnew]

theorem Run_of_subscribe_err {H : Type} (c : Consumer H) (client : Client)
    (ins : List Selected) (err : String)
    (hnew : client.newConsumer (runConfig c) = none)
    (hsub : client.subscribeTopics c.options.Topics = some err) :
    Run c client ins =
      { trace := setupTrace c ++
          [Effect.SubscribeTopics c.options.Topics, Effect.log Level.Error "%v" [LogArg.err err]]
        outcome := Outcome.returned
        pending := ins } := by
  simp only [Run, hnew, hsub]

/-! ## Observations distribute over concatenation -/

theorem receivedEvents_append {H : Type} (a b : List (Effect H)) :
    receivedEvents (a ++ b) = receivedEvents a ++ receivedEvents b :=
  List.filterMap_append _ _ _

theorem receivedSignals_append {H : Type} (a b : List (Effect H)) :
    receivedSignals (a ++ b) = receivedSignals a ++ receivedSignals b :=
  List.filterMap_append _ _ _

theorem handleCalls_append {H : Type} (a b : List (Effect H)) :
    handleCalls (a ++ b) = handleCalls a ++ handleCalls b :=
  List.filterMap_append _ _ _

theorem assignCalls_append {H : Type} (a b : List (Effect H)) :
    assignCalls (a ++ b) = assignCalls a ++ assignCalls b :=
  List.filterMap_append _ _ _

theorem newConsumerCalls_append {H : Type} (a b : List (Effect H)) :
    newConsumerCalls (a ++ b) = newConsumerCalls a ++ newConsumerCalls b :=
  List.filterMap_append _ _ _

theorem closeCount_append {H : Type} (a b : List (Effect H)) :
    closeCount (a ++ b) = closeCount a + closeCount b :=
  List.countP_append _ _ _

theorem unassignCount_append {H : Type} (a b : List (Effect H)) :
    unassignCount (a ++ b) = unassignCount a + unassignCount b :=
  List.countP_append _ _ _

theorem incCount_append {H : Type} (a b : List (Effect H)) :
    incCount (a ++ b) = incCount a + incCount b :=
  List.countP_append _ _ _

/-! ## Observations of one dispatch -/

theorem receivedEvents_dispatch {H : Type} (c : Consumer H) (ev : Event) :
    receivedEvents (dispatch c ev) = [] := by
  cases ev <;> rfl

theorem receivedSignals_dispatch {H : Type} (c : Consumer H) (ev : Event) :
    receivedSignals (dispatch c ev) = [] := by
  cases ev <;> rfl

theorem closeCount_dispatch {H : Type} (c : Consumer H) (ev : Event) :
    closeCount (dispatch c ev) = 0 := by
  cases ev <;> rfl

theorem newConsumerCalls_dispatch {H : Type} (c : Consumer H) (ev : Event) :
    newConsumerCalls (dispatch c ev) = [] := by
  cases ev <;> rfl

theorem handleCalls_dispatch {H : Type} (c : Consumer H) (ev : Event) :
    handleCalls (dispatch c ev) =
      (ev.messageArg.map fun vk => (c.messageHandler, vk.1, vk.2)).toList := by
  cases ev <;> rfl

theorem incCount_dispatch {H : Type} (c : Consumer H) (ev : Event) :
    incCount (dispatch c ev) = if ev.isMessage = true then 1 else 0 := by
  cases ev <;> rfl

theorem assignCalls_dispatch {H : Type} (c : Consumer H) (ev : Event) :
    assignCalls (dispatch c ev) = ev.assignedArg.toList := by
  cases ev <;> rfl

theorem unassignCount_dispatch {H : Type} (c : Consumer H) (ev : Event) :
    unassignCount (dispatch c ev) = if ev.isRevoked = true then 1 else 0 := by
  cases ev <;> rfl

/-! ## Observations of the loop -/

theorem receivedEvents_loopEffects {H : Type} (c : Consumer H) :
    ∀ ins : List Selected, receivedEvents (loopEffects c ins) = pulledEvents ins
  | [] => rfl
  | .signal _ :: _ => rfl
  | .event e :: rest => by
      have ih := receivedEvents_loopEffects c rest
      have hd := receivedEvents_dispatch c e
      simp only [receivedEvents] at ih hd ⊢
      simp [loopEffects, pulledEvents, Effect.eventArg, List.filterMap_append, ih, hd]

theorem handleCalls_loopEffects {H : Type} (c : Consumer H) :
    ∀ ins : List Selected, handleCalls (loopEffects c ins) =
      (pulledEvents ins).filterMap
        (fun e => e.messageArg.map fun vk => (c.messageHandler, vk.1, vk.2))
  | [] => rfl
  | .signal _ :: _ => rfl
  | .event e :: rest => by
      have ih := handleCalls_loopEffects c rest
      have hd := handleCalls_dispatch c e
      simp only [handleCalls] at ih hd ⊢
      cases e <;>
        simp [loopEffects, pulledEvents, Effect.handleArg, List.filterMap_append, ih,
          dispatch, Event.messageArg]

theorem incCount_loopEffects {H : Type} (c : Consumer H) :
    ∀ ins : List Selected, incCount (loopEffects c ins) =
      (pulledEvents ins).countP Event.isMessage
  | [] => rfl
  | .signal _ :: _ => rfl
  | .event e :: rest => by
      have ih := incCount_loopEffects c rest
      simp only [incCount] at ih ⊢
      cases e <;>
        simp [loopEffects, pulledEvents, Effect.isInc, List.countP_append, ih,
          dispatch, Event.isMessage, List.countP_cons]

theorem assignCalls_loopEffects {H : Type} (c : Consumer H) :
    ∀ ins : List Selected, assignCalls (loopEffects c ins) =
      (pulledEvents ins).filterMap Event.assignedArg
  | [] => rfl
  | .signal _ :: _ => rfl
  | .event e :: rest => by
      have ih := assignCalls_loopEffects c rest
      simp only [assignCalls] at ih ⊢
      cases e <;>
        simp [loopEffects, pulledEvents, Effect.partitionsArg, List.filterMap_append, ih,
          dispatch, Event.assignedArg]

theorem unassignCount_loopEffects {H : Type} (c : Consumer H) :
    ∀ ins : List Selected, unassignCount (loopEffects c ins) =
      (pulledEvents ins).countP Event.isRevoked
  | [] => rfl
  | .signal _ :: _ => rfl
  | .event e :: rest => by
      have ih := unassignCount_loopEffects c rest
      simp only [unassignCount] at ih ⊢
      cases e <;>
        simp [loopEffects, pulledEvents, Effect.isUnassign, List.countP_append, ih,
          dispatch, Event.isRevoked, List.countP_cons]

theorem closeCount_loopEffects {H : Type} (c : Consumer H) :
    ∀ ins : List Selected, closeCount (loopEffects c ins) = 0
  | [] => rfl
  | .signal _ :: _ => rfl
  | .event e :: rest => by
      have ih := closeCount_loopEffects c rest
      have hd := closeCount_dispatch c e
      simp only [closeCount] at ih hd ⊢
      simp [loopEffects, Effect.isClose, List.countP_append, ih, hd, List.countP_cons]

theorem newConsumerCalls_loopEffects {H : Type} (c : Consumer H) :
    ∀ ins : List Selected, newConsumerCalls (loopEffects c ins) = []
  | [] => rfl
  | .signal _ :: _ => rfl
  | .event e :: rest => by
      have ih := newConsumerCalls_loopEffects c rest
      have hd := newConsumerCalls_dispatch c e
      simp only [newConsumerCalls] at ih hd ⊢
      simp [loopEffects, Effect.newConsumerArg, List.filterMap_append, ih, hd]

/-- When a signal is among the inputs, the loop's effects end with the receipt of the
first signal and its log line; before it come only received events and their
dispatches. -/
theorem loopEffects_split {H : Type} (c : Consumer H) :
    ∀ ins : List Selected, ins.any Selected.isSignal = true →
      ∃ (s : Signal) (before : List (Effect H)),
        ins = (pulledEvents ins).map Selected.event ++ Selected.signal s :: afterSignal ins ∧
        loopEffects c ins = before ++
          [Effect.recvSignal s,
            Effect.log Level.Info "Consumer caught signal %v: terminating" [LogArg.sig s]] ∧
        receivedEvents before = pulledEvents ins ∧
        receivedSignals before = [] ∧
        closeCount before = 0
  | [], h => by simp at h
  | .signal s :: rest, _ => ⟨s, [], rfl, rfl, rfl, rfl, rfl⟩
  | .event e :: rest, h => by
      have h' : rest.any Selected.isSignal = true := by
        simpa [Selected.isSignal] using h
      obtain ⟨s, before, h1, h2, h3, h4, h5⟩ := loopEffects_split c rest h'
      refine ⟨s, Effect.recvEvent e :: (dispatch c e ++ before), ?_, ?_, ?_, ?_, ?_⟩
      · simp only [pulledEvents, afterSignal, List.map_cons, List.cons_append]
        rw [← h1]
      · simp [loopEffects, h2]
      · have hd := receivedEvents_dispatch c e
        simp only [receivedEvents] at h3 hd ⊢
        simp [Effect.eventArg, List.filterMap_append, h3, hd, pulledEvents]
      · have hd := receivedSignals_dispatch c e
        simp only [receivedSignals] at h4 hd ⊢
        simp [Effect.signalArg, List.filterMap_append, h4, hd]
      · have hd := closeCount_dispatch c e
        simp only [closeCount] at h5 hd ⊢
        simp [Effect.isClose, List.countP_append, h5, hd, List.countP_cons]

/-! ## Properties of `Consumer.Run` and `NewConsumer` -/

/-- C1: with successful setup, the events `Run` receives are the client events selected
before the first signal; the launched `HandleMessage` calls are, in order, one
`(handler, V, K)` for each `Message` event (value `V`, key `K`) among them; the number of
launched metric increments, and of launched handler calls, is the number of `Message`
events among them.  A `Message` event launches exactly one handler call and one
increment; an event of any other kind launches neither. -/
theorem run_dispatches_each_message {H : Type} (c : Consumer H) (client : Client)
    (inputs : List Selected)
    (hnew : client.newConsumer (runConfig c) = none)
    (hsub : client.subscribeTopics c.options.Topics = none) :
    receivedEvents (Run c client inputs).trace = pulledEvents inputs ∧
    handleCalls (Run c client inputs).trace =
      (pulledEvents inputs).filterMap
        (fun e => e.messageArg.map fun vk => (c.messageHandler, vk.1, vk.2)) ∧
    incCount (Run c client inputs).trace = (pulledEvents inputs).countP Event.isMessage ∧
    (handleCalls (Run c client inputs).trace).length =
      (pulledEvents inputs).countP Event.isMessage ∧
    (∀ V K, handleCalls (dispatch c (Event.Message V K)) = [(c.messageHandler, V, K)] ∧
      incCount (dispatch c (Event.Message V K)) = 1) ∧
    (∀ ev, ev.isMessage = false →
      handleCalls (dispatch c ev) = [] ∧ incCount (dispatch c ev) = 0) := by
  have hE := receivedEvents_loopEffects c inputs
  have hH := handleCalls_loopEffects c inputs
  have hI := incCount_loopEffects c inputs
  have hcalls : handleCalls (Run c client inputs).trace =
      (pulledEvents inputs).filterMap
        (fun e => e.messageArg.map fun vk => (c.messageHandler, vk.1, vk.2)) := by
    rw [Run_of_setup_ok c client inputs hnew hsub, ← hH]
    simp only [handleCalls]
    cases inputs.any Selected.isSignal <;>
      simp [setupTrace, Effect.handleArg, List.filterMap_append]
  refine ⟨?_, hcalls, ?_, ?_, ?_, ?_⟩
  · rw [Run_of_setup_ok c client inputs hnew hsub, ← hE]
    simp only [receivedEvents]
    cases inputs.any Selected.isSignal <;>
      simp [setupTrace, Effect.eventArg, List.filterMap_append]
  · rw [Run_of_setup_ok c client inputs hnew hsub, ← hI]
    simp only [incCount]
    cases inputs.any Selected.isSignal <;>
      simp [setupTrace, Effect.isInc, List.countP_append, List.countP_cons]
  · rw [hcalls]
    generalize pulledEvents inputs = evs
    induction evs with
    | nil => rfl
    | cons e es ih =>
        cases e <;>
          simp_all [List.filterMap_cons, List.countP_cons, Event.messageArg, Event.isMessage]
  · intro V K
    exact ⟨rfl, rfl⟩
  · intro ev hev
    cases ev <;> first | exact ⟨rfl, rfl⟩ | simp [Event.isMessage] at hev

/-- Witness for C1: in the scenario the two messages before SIGTERM are dispatched, the
one after it is not. -/
theorem run_dispatches_each_message_witness :
    handleCalls (Run scenarioConsumer okClient scenarioInputs).trace =
      [("handler", [97], [107, 49]), ("handler", [98], [107, 50])] :=
  (run_dispatches_each_message scenarioConsumer okClient scenarioInputs rfl rfl).2.1

/-- C2: with successful setup and a signal among the inputs, the inputs split at their
first signal `s` into client events `pre`, `s`, and the rest `post`; `Run` returns, never
selects `post`, receives exactly the events `pre`, and its trace ends with: receipt of
`s`, the log line, `Close`, the closing log line.  `Close` occurs exactly once, and
nothing precedes the signal's receipt but the setup and the handling of `pre`. -/
theorem run_stops_at_signal {H : Type} (c : Consumer H) (client : Client)
    (inputs : List Selected)
    (hnew : client.newConsumer (runConfig c) = none)
    (hsub : client.subscribeTopics c.options.Topics = none)
    (hsig : ∃ s, Selected.signal s ∈ inputs) :
    ∃ (pre : List Event) (s : Signal) (post : List Selected) (before : List (Effect H)),
      inputs = pre.map Selected.event ++ Selected.signal s :: post ∧
      (Run c client inputs).outcome = Outcome.returned ∧
      (Run c client inputs).pending = post ∧
      (Run c client inputs).trace = before ++
        [Effect.recvSignal s,
          Effect.log Level.Info "Consumer caught signal %v: terminating" [LogArg.sig s],
          Effect.Close,
          Effect.log Level.Info "Consumer Closed" []] ∧
      receivedEvents before = pre ∧
      receivedSignals before = [] ∧
      closeCount before = 0 ∧
      receivedEvents (Run c client inputs).trace = pre ∧
      closeCount (Run c client inputs).trace = 1 := by
  have hany := (any_isSignal_iff inputs).mpr hsig
  obtain ⟨s, before, h1, h2, h3, h4, h5⟩ := loopEffects_split c inputs hany
  have htrace : (Run c client inputs).trace =
      (setupTrace c ++ Effect.SubscribeTopics c.options.Topics :: before) ++
        [Effect.recvSignal s,
          Effect.log Level.Info "Consumer caught signal %v: terminating" [LogArg.sig s],
          Effect.Close,
          Effect.log Level.Info "Consumer Closed" []] := by
    rw [Run_of_setup_ok c client inputs hnew hsub]
    simp [hany, h2]
  have hb1 : receivedEvents (setupTrace c ++ Effect.SubscribeTopics c.options.Topics :: before)
      = pulledEvents inputs := by
    simp only [receivedEvents] at h3 ⊢
    simp [setupTrace, Effect.eventArg, List.filterMap_append, h3]
  have hb2 : receivedSignals
      (setupTrace c ++ Effect.SubscribeTopics c.options.Topics :: before) = [] := by
    simp only [receivedSignals] at h4 ⊢
    simp [setupTrace, Effect.signalArg, List.filterMap_append, h4]
  have hb3 : closeCount
      (setupTrace c ++ Effect.SubscribeTopics c.options.Topics :: before) = 0 := by
    simp only [closeCount] at h5 ⊢
    simp [setupTrace, Effect.isClose, List.countP_append, List.countP_cons, h5]
  refine ⟨pulledEvents inputs, s, afterSignal inputs, _, h1, ?_, ?_, htrace, hb1, hb2, hb3,
    ?_, ?_⟩
  · rw [Run_of_setup_ok c client inputs hnew hsub]
    simp [hany]
  · rw [Run_of_setup_ok c client inputs hnew hsub]
  · rw [htrace, receivedEvents_append, hb1]
    exact List.append_nil _
  · rw [htrace, closeCount_append, hb3]
    rfl

/-- Witness for C2: the scenario has a SIGTERM; the run closes the client once. -/
theorem run_stops_at_signal_witness :
    closeCount (Run scenarioConsumer okClient scenarioInputs).trace = 1 := by
  obtain ⟨_, _, _, _, _, _, _, _, _, _, _, _, h⟩ :=
    run_stops_at_signal scenarioConsumer okClient scenarioInputs rfl rfl
      ⟨Signal.SIGTERM, by simp [scenarioInputs]⟩
  exact h

/-- The trace of `Run` in its three cases: client creation failed, subscription failed,
or the loop ran. -/
theorem Run_trace {H : Type} (c : Consumer H) (client : Client) (ins : List Selected) :
    (∃ err, client.newConsumer (runConfig c) = some err ∧
      Run c client ins =
        { trace := setupTrace c ++ [Effect.log Level.Error "%v" [LogArg.err err]]
          outcome := Outcome.returned
          pending := ins }) ∨
    (∃ err, client.newConsumer (runConfig c) = none ∧
      client.subscribeTopics c.options.Topics = some err ∧
      Run c client ins =
        { trace := setupTrace c ++
            [Effect.SubscribeTopics c.options.Topics,
              Effect.log Level.Error "%v" [LogArg.err err]]
          outcome := Outcome.returned
          pending := ins }) ∨
    (client.newConsumer (runConfig c) = none ∧
      client.subscribeTopics c.options.Topics = none ∧
      Run c client ins =
        { trace := setupTrace c ++ Effect.SubscribeTopics c.options.Topics ::
            (loopEffects c ins ++
              if ins.any Selected.isSignal = true then
                [Effect.Close, Effect.log Level.Info "Consumer Closed" []]
              else [])
          outcome := if ins.any Selected.isSignal = true then Outcome.returned
            else Outcome.blocked
          pending := afterSignal ins }) := by
  cases hnew : client.newConsumer (runConfig c) with
  | some err => exact Or.inl ⟨err, rfl, Run_of_newConsumer_err c client ins err hnew⟩
  | none =>
      cases hsub : client.subscribeTopics c.options.Topics with
      | some err =>
          exact Or.inr (Or.inl ⟨err, rfl, rfl, Run_of_subscribe_err c client ins err hnew hsub⟩)
      | none => exact Or.inr (Or.inr ⟨rfl, rfl, Run_of_setup_ok c client ins hnew hsub⟩)

/-- C3 refuted as stated: for a revocation of partition `p0` the only client call is
`Unassign`, it carries no partition list, and it is the same call as for a revocation of
`p0` and `p1`. -/
theorem revoked_unassign_names_no_partitions :
    clientCalls (dispatch scenarioConsumer (Event.RevokedPartitions [p0])) =
      [Effect.Unassign] ∧
    clientCalls (dispatch scenarioConsumer (Event.RevokedPartitions [p0])) =
      clientCalls (dispatch scenarioConsumer (Event.RevokedPartitions [p0, p1])) ∧
    ¬ ∃ e ∈ clientCalls (dispatch scenarioConsumer (Event.RevokedPartitions [p0])),
        Effect.partitionsArg e = some [p0] := by
  refine ⟨rfl, rfl, ?_⟩
  simp [clientCalls, dispatch, Effect.isClientCall, Effect.partitionsArg]

/-- The trace of a run whose setup succeeded, as four consecutive segments. -/
theorem Run_trace_ok {H : Type} (c : Consumer H) (client : Client) (ins : List Selected)
    (hnew : client.newConsumer (runConfig c) = none)
    (hsub : client.subscribeTopics c.options.Topics = none) :
    (Run c client ins).trace =
      setupTrace c ++ ([Effect.SubscribeTopics c.options.Topics] ++
        (loopEffects c ins ++
          if ins.any Selected.isSignal = true then
            [Effect.Close, Effect.log Level.Info "Consumer Closed" []]
          else [])) := by
  rw [Run_of_setup_ok c client ins hnew hsub]
  rfl

theorem receivedEvents_Run_ok {H : Type} (c : Consumer H) (client : Client)
    (ins : List Selected)
    (hnew : client.newConsumer (runConfig c) = none)
    (hsub : client.subscribeTopics c.options.Topics = none) :
    receivedEvents (Run c client ins).trace = pulledEvents ins := by
  rw [Run_trace_ok c client ins hnew hsub]
  simp only [receivedEvents_append, receivedEvents_loopEffects]
  cases ins.any Selected.isSignal <;> simp [receivedEvents, setupTrace, Effect.eventArg]

theorem assignCalls_Run_ok {H : Type} (c : Consumer H) (client : Client)
    (ins : List Selected)
    (hnew : client.newConsumer (runConfig c) = none)
    (hsub : client.subscribeTopics c.options.Topics = none) :
    assignCalls (Run c client ins).trace =
      (pulledEvents ins).filterMap Event.assignedArg := by
  rw [Run_trace_ok c client ins hnew hsub]
  simp only [assignCalls_append, assignCalls_loopEffects]
  cases ins.any Selected.isSignal <;> simp [assignCalls, setupTrace, Effect.partitionsArg]

theorem closeCount_Run_ok {H : Type} (c : Consumer H) (client : Client)
    (ins : List Selected)
    (hnew : client.newConsumer (runConfig c) = none)
    (hsub : client.subscribeTopics c.options.Topics = none) :
    closeCount (Run c client ins).trace =
      if ins.any Selected.isSignal = true then 1 else 0 := by
  rw [Run_trace_ok c client ins hnew hsub]
  simp only [closeCount_append, closeCount_loopEffects]
  cases ins.any Selected.isSignal <;>
    simp [closeCount, setupTrace, Effect.isClose, List.countP_cons]

theorem newConsumerCalls_Run_ok {H : Type} (c : Consumer H) (client : Client)
    (ins : List Selected)
    (hnew : client.newConsumer (runConfig c) = none)
    (hsub : client.subscribeTopics c.options.Topics = none) :
    newConsumerCalls (Run c client ins).trace = [runConfig c] := by
  rw [Run_trace_ok c client ins hnew hsub]
  simp only [newConsumerCalls_append, newConsumerCalls_loopEffects]
  cases ins.any Selected.isSignal <;>
    simp [newConsumerCalls, setupTrace, Effect.newConsumerArg]

theorem unassignCount_Run_ok {H : Type} (c : Consumer H) (client : Client)
    (ins : List Selected)
    (hnew : client.newConsumer (runConfig c) = none)
    (hsub : client.subscribeTopics c.options.Topics = none) :
    unassignCount (Run c client ins).trace =
      (pulledEvents ins).countP Event.isRevoked := by
  rw [Run_trace_ok c client ins hnew hsub]
  simp only [unassignCount_append, unassignCount_loopEffects]
  cases ins.any Selected.isSignal <;>
    simp [unassignCount, setupTrace, Effect.isUnassign, List.countP_cons]

theorem clientCalls_append {H : Type} (a b : List (Effect H)) :
    clientCalls (a ++ b) = clientCalls a ++ clientCalls b :=
  List.filter_append _ _

theorem clientCalls_dispatch {H : Type} (c : Consumer H) (ev : Event) :
    clientCalls (dispatch c ev) = (Event.clientCall ev).toList := by
  cases ev <;> rfl

theorem clientCalls_loopEffects {H : Type} (c : Consumer H) :
    ∀ ins : List Selected, clientCalls (loopEffects c ins) =
      (pulledEvents ins).filterMap Event.clientCall
  | [] => rfl
  | .signal _ :: _ => rfl
  | .event e :: rest => by
      have ih := clientCalls_loopEffects c rest
      have hd := clientCalls_dispatch c e
      have hcons : clientCalls (loopEffects c (Selected.event e :: rest)) =
          clientCalls (dispatch c e) ++ clientCalls (loopEffects c rest) := by
        change clientCalls ([Effect.recvEvent e] ++ (dispatch c e ++ loopEffects c rest)) = _
        rw [clientCalls_append, clientCalls_append]
        rfl
      rw [hcons, hd, ih]
      cases e <;> rfl

/-- With successful setup, the client calls of a run are: the subscription, then for
each event selected before the first signal the call of its case (if it has one), then
`Close` if a signal was selected. -/
theorem clientCalls_Run_ok {H : Type} (c : Consumer H) (client : Client)
    (ins : List Selected)
    (hnew : client.newConsumer (runConfig c) = none)
    (hsub : client.subscribeTopics c.options.Topics = none) :
    clientCalls (Run c client ins).trace =
      Effect.SubscribeTopics c.options.Topics ::
        ((pulledEvents ins).filterMap Event.clientCall ++
          if ins.any Selected.isSignal = true then [Effect.Close] else []) := by
  rw [Run_trace_ok c client ins hnew hsub]
  simp only [clientCalls_append, clientCalls_loopEffects]
  cases ins.any Selected.isSignal <;> rfl

theorem any_isSignal_events (evs : List Event) :
    (evs.map Selected.event).any Selected.isSignal = false := by
  induction evs with
  | nil => rfl
  | cons e es ih => simp [Selected.isSignal]

theorem loopEffects_events_append {H : Type} (c : Consumer H) (rest : List Selected) :
    ∀ evs : List Event, loopEffects c (evs.map Selected.event ++ rest) =
      loopEffects c (evs.map Selected.event) ++ loopEffects c rest
  | [] => rfl
  | e :: es => by
      have ih := loopEffects_events_append c rest es
      change Effect.recvEvent e ::
          (dispatch c e ++ loopEffects c (es.map Selected.event ++ rest)) =
        (Effect.recvEvent e :: (dispatch c e ++ loopEffects c (es.map Selected.event))) ++
          loopEffects c rest
      rw [ih, List.cons_append, List.append_assoc]

/-- With successful setup, selecting one more client event after a sequence of client
events extends the trace by the receipt of that event and the effects of its case, and by
nothing else. -/
theorem Run_trace_events_snoc {H : Type} (c : Consumer H) (client : Client)
    (pre : List Event) (ev : Event)
    (hnew : client.newConsumer (runConfig c) = none)
    (hsub : client.subscribeTopics c.options.Topics = none) :
    (Run c client (pre.map Selected.event ++ [Selected.event ev])).trace =
      (Run c client (pre.map Selected.event)).trace ++
        (Effect.recvEvent ev :: dispatch c ev) := by
  have h1 : (pre.map Selected.event ++ [Selected.event ev]).any Selected.isSignal = false := by
    have := any_isSignal_events (pre ++ [ev])
    simpa using this
  have h2 := any_isSignal_events pre
  rw [Run_trace_ok c client _ hnew hsub, Run_trace_ok c client _ hnew hsub, h1, h2,
    loopEffects_events_append]
  simp [loopEffects]

/-- C3 amended: for every Partitions Revoked event, whatever partitions `P` it carries,
the only client call `Run` makes is one `Unassign()` without arguments, and no other
event kind makes `Run` call `Unassign`.  The loop step on such an event keeps `run` true
and adds to the trace exactly: the receipt, the log line, `Unassign`.  In every run the
number of `Unassign` calls is the number of Partitions Revoked events received.  With
successful setup the events received are the client events selected before the first
signal, the `Unassign` calls number the Partitions Revoked events among them, the client
calls of the whole run are the subscription, one call per Assigned or Revoked event among
them in order, and `Close` if a signal was selected; and selecting a Partitions Revoked
event after any sequence of client events extends the run's trace by exactly the receipt,
the log line and `Unassign`. -/
theorem revoked_calls_unassign_once {H : Type} (c : Consumer H) (client : Client)
    (inputs : List Selected) :
    (∀ P, clientCalls (dispatch c (Event.RevokedPartitions P)) = [Effect.Unassign]) ∧
    (∀ ev, ev.isRevoked = false → unassignCount (dispatch c ev) = 0) ∧
    (∀ (st : LoopState H) (P : List TopicPartition), st.run = true →
      selectStep c st (Selected.event (Event.RevokedPartitions P)) =
        { run := true
          trace := st.trace ++
            [Effect.recvEvent (Event.RevokedPartitions P),
              Effect.log Level.Info "Revoking Partition %v"
                [LogArg.ev (Event.RevokedPartitions P)],
              Effect.Unassign] }) ∧
    unassignCount (Run c client inputs).trace =
      (receivedEvents (Run c client inputs).trace).countP Event.isRevoked ∧
    (client.newConsumer (runConfig c) = none →
      client.subscribeTopics c.options.Topics = none →
      receivedEvents (Run c client inputs).trace = pulledEvents inputs ∧
      unassignCount (Run c client inputs).trace =
        (pulledEvents inputs).countP Event.isRevoked ∧
      clientCalls (Run c client inputs).trace =
        Effect.SubscribeTopics c.options.Topics ::
          ((pulledEvents inputs).filterMap Event.clientCall ++
            if inputs.any Selected.isSignal = true then [Effect.Close] else []) ∧
      ∀ (pre : List Event) (P : List TopicPartition),
        (Run c client
          (pre.map Selected.event ++ [Selected.event (Event.RevokedPartitions P)])).trace =
          (Run c client (pre.map Selected.event)).trace ++
            [Effect.recvEvent (Event.RevokedPartitions P),
              Effect.log Level.Info "Revoking Partition %v"
                [LogArg.ev (Event.RevokedPartitions P)],
              Effect.Unassign]) := by
  refine ⟨fun _ => rfl, ?_, ?_, ?_, ?_⟩
  · intro ev hev
    cases ev <;> first | rfl | simp [Event.isRevoked] at hev
  · intro st P hrun
    simp only [selectStep, dispatch, hrun]
  · rcases Run_trace c client inputs with ⟨err, _, h⟩ | ⟨err, _, _, h⟩ | ⟨hnew, hsub, _⟩
    · rw [h]; rfl
    · rw [h]; rfl
    · rw [unassignCount_Run_ok c client inputs hnew hsub,
        receivedEvents_Run_ok c client inputs hnew hsub]
  · intro hnew hsub
    refine ⟨receivedEvents_Run_ok c client inputs hnew hsub,
      unassignCount_Run_ok c client inputs hnew hsub,
      clientCalls_Run_ok c client inputs hnew hsub, ?_⟩
    intro pre P
    exact Run_trace_events_snoc c client pre (Event.RevokedPartitions P) hnew hsub

/-- An instance of C3 amended: in the scenario the client calls are the subscription,
`Assign` of the two partitions, one `Unassign` without arguments, and `Close`. -/
theorem revoked_calls_unassign_once_witness :
    clientCalls (Run scenarioConsumer okClient scenarioInputs).trace =
      [Effect.SubscribeTopics ["clicks"], Effect.Assign [p0, p1], Effect.Unassign,
        Effect.Close] :=
  ((revoked_calls_unassign_once scenarioConsumer okClient scenarioInputs).2.2.2.2
    rfl rfl).2.2.1

/-- C4: for every Partitions Assigned event carrying `P`, the only client call `Run`
makes is one `Assign(P)`, with the event's partition list unchanged, and no other event
kind makes `Run` call `Assign`.  The loop step on such an event keeps `run` true and adds
to the trace exactly: the receipt, the log line, `Assign(P)`.  In every run the arguments
of the `Assign` calls are, in order, the partition lists of the Partitions Assigned
events received.  With successful setup the events received are the client events
selected before the first signal, the `Assign` arguments are in order the partition lists
of the Partitions Assigned events among them, the client calls of the whole run are the
subscription, one call per Assigned or Revoked event among them in order, and `Close` if
a signal was selected; and selecting a Partitions Assigned event after any sequence of
client events extends the run's trace by exactly the receipt, the log line and
`Assign(P)`. -/
theorem assigned_calls_assign_with_partitions {H : Type} (c : Consumer H) (client : Client)
    (inputs : List Selected) :
    (∀ P, clientCalls (dispatch c (Event.AssignedPartitions P)) = [Effect.Assign P]) ∧
    (∀ ev, ev.assignedArg = none → assignCalls (dispatch c ev) = []) ∧
    (∀ (st : LoopState H) (P : List TopicPartition), st.run = true →
      selectStep c st (Selected.event (Event.AssignedPartitions P)) =
        { run := true
          trace := st.trace ++
            [Effect.recvEvent (Event.AssignedPartitions P),
              Effect.log Level.Info "Assigning Partition %v"
                [LogArg.ev (Event.AssignedPartitions P)],
              Effect.Assign P] }) ∧
    assignCalls (Run c client inputs).trace =
      (receivedEvents (Run c client inputs).trace).filterMap Event.assignedArg ∧
    (client.newConsumer (runConfig c) = none →
      client.subscribeTopics c.options.Topics = none →
      receivedEvents (Run c client inputs).trace = pulledEvents inputs ∧
      assignCalls (Run c client inputs).trace =
        (pulledEvents inputs).filterMap Event.assignedArg ∧
      clientCalls (Run c client inputs).trace =
        Effect.SubscribeTopics c.options.Topics ::
          ((pulledEvents inputs).filterMap Event.clientCall ++
            if inputs.any Selected.isSignal = true then [Effect.Close] else []) ∧
      ∀ (pre : List Event) (P : List TopicPartition),
        (Run c client
          (pre.map Selected.event ++ [Selected.event (Event.AssignedPartitions P)])).trace =
          (Run c client (pre.map Selected.event)).trace ++
            [Effect.recvEvent (Event.AssignedPartitions P),
              Effect.log Level.Info "Assigning Partition %v"
                [LogArg.ev (Event.AssignedPartitions P)],
              Effect.Assign P]) := by
  refine ⟨fun _ => rfl, ?_, ?_, ?_, ?_⟩
  · intro ev hev
    cases ev <;> first | rfl | simp [Event.assignedArg] at hev
  · intro st P hrun
    simp only [selectStep, dispatch, hrun]
  · rcases Run_trace c client inputs with ⟨err, _, h⟩ | ⟨err, _, _, h⟩ | ⟨hnew, hsub, _⟩
    · rw [h]; rfl
    · rw [h]; rfl
    · rw [assignCalls_Run_ok c client inputs hnew hsub,
        receivedEvents_Run_ok c client inputs hnew hsub]
  · intro hnew hsub
    refine ⟨receivedEvents_Run_ok c client inputs hnew hsub,
      assignCalls_Run_ok c client inputs hnew hsub,
      clientCalls_Run_ok c client inputs hnew hsub, ?_⟩
    intro pre P
    exact Run_trace_events_snoc c client pre (Event.AssignedPartitions P) hnew hsub

/-- An instance of C4: in the scenario the one `Assign` call carries the two partitions
of the Partitions Assigned event. -/
theorem assigned_calls_assign_with_partitions_witness :
    assignCalls (Run scenarioConsumer okClient scenarioInputs).trace = [[p0, p1]] :=
  ((assigned_calls_assign_with_partitions scenarioConsumer okClient scenarioInputs).2.2.2.2
    rfl rfl).2.1

/-- C5: when client creation fails or subscription fails, `Run` returns with every input
unselected: it receives no event and no signal, makes no `Assign`, `Unassign` or `Close`
call, launches no handler call and no metric increment, creates the client exactly once,
and subscribes once if client creation succeeded and never if it failed. -/
theorem setup_failure_is_fail_fast {H : Type} (c : Consumer H) (client : Client)
    (inputs : List Selected)
    (hfail : client.newConsumer (runConfig c) ≠ none ∨
      client.subscribeTopics c.options.Topics ≠ none) :
    (Run c client inputs).outcome = Outcome.returned ∧
    (Run c client inputs).pending = inputs ∧
    receivedEvents (Run c client inputs).trace = [] ∧
    receivedSignals (Run c client inputs).trace = [] ∧
    assignCalls (Run c client inputs).trace = [] ∧
    unassignCount (Run c client inputs).trace = 0 ∧
    handleCalls (Run c client inputs).trace = [] ∧
    incCount (Run c client inputs).trace = 0 ∧
    closeCount (Run c client inputs).trace = 0 ∧
    newConsumerCalls (Run c client inputs).trace = [runConfig c] ∧
    subscribeCalls (Run c client inputs).trace =
      (if client.newConsumer (runConfig c) = none then [c.options.Topics] else []) := by
  rcases Run_trace c client inputs with ⟨err, hnew, h⟩ | ⟨err, hnew, _, h⟩ | ⟨hnew, hsub, _⟩
  · rw [h, hnew]
    exact ⟨rfl, rfl, rfl, rfl, rfl, rfl, rfl, rfl, rfl, rfl, rfl⟩
  · rw [h, hnew]
    exact ⟨rfl, rfl, rfl, rfl, rfl, rfl, rfl, rfl, rfl, rfl, rfl⟩
  · rcases hfail with hf | hf
    · exact absurd hnew hf
    · exact absurd hsub hf

/-- Witness for C5: with a client that cannot be created, the scenario inputs all stay
pending. -/
theorem setup_failure_is_fail_fast_witness :
    (Run scenarioConsumer noBrokerClient scenarioInputs).pending = scenarioInputs :=
  (setup_failure_is_fail_fast scenarioConsumer noBrokerClient scenarioInputs
    (Or.inl (by simp [noBrokerClient]))).2.1

/-- C6: a Client Error event or a Partition EOF event selected while `run` is true leaves
`run` true and adds no client call to the trace.  So, with successful setup, `Run` returns
exactly when a signal is among the inputs, `Close` is called exactly then, and on inputs
that are all client events `Run` stays blocked in the loop with no `Close`. -/
theorem error_and_eof_events_are_not_fatal {H : Type} (c : Consumer H) (client : Client)
    (inputs : List Selected)
    (hnew : client.newConsumer (runConfig c) = none)
    (hsub : client.subscribeTopics c.options.Topics = none) :
    (∀ (st : LoopState H) (text : String), st.run = true →
      (selectStep c st (Selected.event (Event.Error text))).run = true ∧
      clientCalls (selectStep c st (Selected.event (Event.Error text))).trace =
        clientCalls st.trace) ∧
    (∀ (st : LoopState H) (tp : TopicPartition), st.run = true →
      (selectStep c st (Selected.event (Event.PartitionEOF tp))).run = true ∧
      clientCalls (selectStep c st (Selected.event (Event.PartitionEOF tp))).trace =
        clientCalls st.trace) ∧
    ((Run c client inputs).outcome = Outcome.returned ↔ ∃ s, Selected.signal s ∈ inputs) ∧
    (closeCount (Run c client inputs).trace = 1 ↔ ∃ s, Selected.signal s ∈ inputs) ∧
    ((∀ i ∈ inputs, Selected.isSignal i = false) →
      (Run c client inputs).outcome = Outcome.blocked ∧
      closeCount (Run c client inputs).trace = 0) := by
  have hout : (Run c client inputs).outcome =
      if inputs.any Selected.isSignal = true then Outcome.returned else Outcome.blocked := by
    rw [Run_of_setup_ok c client inputs hnew hsub]
  have hclose := closeCount_Run_ok c client inputs hnew hsub
  refine ⟨?_, ?_, ?_, ?_, ?_⟩
  · intro st text hrun
    refine ⟨hrun, ?_⟩
    simp [selectStep, dispatch, clientCalls, Effect.isClientCall, List.filter_append]
  · intro st tp hrun
    refine ⟨hrun, ?_⟩
    simp [selectStep, dispatch, clientCalls, Effect.isClientCall, List.filter_append]
  · rw [hout, ← any_isSignal_iff]
    cases inputs.any Selected.isSignal <;> simp
  · rw [hclose, ← any_isSignal_iff]
    cases inputs.any Selected.isSignal <;> simp
  · intro hall
    have hno : inputs.any Selected.isSignal = false := by
      cases hs : inputs.any Selected.isSignal with
      | false => rfl
      | true =>
          obtain ⟨x, hx, hxs⟩ := List.any_eq_true.mp hs
          rw [hall x hx] at hxs
          cases hxs
    rw [hout, hclose, hno]
    exact ⟨rfl, rfl⟩

/-- Witness for C6: after a client error and a partition EOF the run is still blocked in
the loop. -/
theorem error_and_eof_events_are_not_fatal_witness :
    (Run scenarioConsumer okClient
      [Selected.event (Event.Error "broker down"),
        Selected.event (Event.PartitionEOF p0)]).outcome = Outcome.blocked :=
  ((error_and_eof_events_are_not_fatal scenarioConsumer okClient
    [Selected.event (Event.Error "broker down"), Selected.event (Event.PartitionEOF p0)]
    rfl rfl).2.2.2.2 (by simp [Selected.isSignal])).1

/-- C10: in every run `Close` is called at most once; it is called exactly when client
creation succeeded, subscription succeeded and a signal is among the inputs; and when
client creation succeeds but subscription fails, `Run` returns having created the client
once and never closed it. -/
theorem close_only_on_loop_exit {H : Type} (c : Consumer H) (client : Client)
    (inputs : List Selected) :
    closeCount (Run c client inputs).trace ≤ 1 ∧
    (closeCount (Run c client inputs).trace = 1 ↔
      client.newConsumer (runConfig c) = none ∧
      client.subscribeTopics c.options.Topics = none ∧
      ∃ s, Selected.signal s ∈ inputs) ∧
    (client.newConsumer (runConfig c) = none →
      client.subscribeTopics c.options.Topics ≠ none →
      (Run c client inputs).outcome = Outcome.returned ∧
      newConsumerCalls (Run c client inputs).trace = [runConfig c] ∧
      closeCount (Run c client inputs).trace = 0) := by
  rcases Run_trace c client inputs with ⟨err, hnew, h⟩ | ⟨err, hnew, hsub, h⟩ | ⟨hnew, hsub, h⟩
  · have h0 : closeCount (Run c client inputs).trace = 0 := by rw [h]; rfl
    refine ⟨by omega, ?_, ?_⟩
    · rw [h0, hnew]; simp
    · intro hn; rw [hnew] at hn; cases hn
  · have h0 : closeCount (Run c client inputs).trace = 0 := by rw [h]; rfl
    refine ⟨by omega, ?_, ?_⟩
    · rw [h0, hnew, hsub]; simp
    · intro _ _
      refine ⟨by rw [h], by rw [h]; rfl, h0⟩
  · have hc := closeCount_Run_ok c client inputs hnew hsub
    refine ⟨?_, ?_, ?_⟩
    · rw [hc]; split <;> omega
    · rw [hc, ← any_isSignal_iff]
      cases inputs.any Selected.isSignal <;> simp [hnew, hsub]
    · intro _ hn
      exact absurd hsub hn

/-- An instance of C10: the subscription fails in the scenario, the client was created
and is never closed. -/
theorem close_only_on_loop_exit_witness :
    (Run scenarioConsumer noTopicClient scenarioInputs).outcome = Outcome.returned ∧
    newConsumerCalls (Run scenarioConsumer noTopicClient scenarioInputs).trace =
      [runConfig scenarioConsumer] ∧
    closeCount (Run scenarioConsumer noTopicClient scenarioInputs).trace = 0 :=
  (close_only_on_loop_exit scenarioConsumer noTopicClient scenarioInputs).2.2 rfl
    (by simp [noTopicClient])

end EventRouter

namespace EventRouter.Config

/-! ## Properties of `verifyRequiredEnvVars` and `Initalize` -/

theorem length_eq_zero_iff_empty (s : String) : s.length = 0 ↔ s = "" := by
  constructor
  · intro h
    have hd : s.data = [] := List.length_eq_zero.mp h
    exact String.ext hd
  · intro h
    rw [h]
    rfl

/-- The loop over the required settings leaves the error list empty exactly when it was
empty before and every required setting is non-empty. -/
theorem requiredErrs_length_eq_zero (errString : String → String → String) (env : Environ) :
    ∀ (required errs : List String),
      (requiredErrs errString env errs required).length = 0 ↔
        errs.length = 0 ∧ ∀ k ∈ required, GetString env k ≠ ""
  | [], errs => by simp [requiredErrs]
  | k :: rest, errs => by
      have ih := requiredErrs_length_eq_zero errString env rest
      by_cases hk : (GetString env k).length = 0
      · have hk' := (length_eq_zero_iff_empty _).mp hk
        simp [requiredErrs, hk, ih, hk']
      · have hk' : GetString env k ≠ "" := fun h => hk ((length_eq_zero_iff_empty _).mpr h)
        simp [requiredErrs, hk, ih, hk']

/-- What `verifyRequiredEnvVars` checks: it returns `nil` exactly when every required
setting is non-empty and the API key or the user name is non-empty. -/
theorem verify_err_eq_none_iff (errString : String → String → String) (env : Environ)
    (required : List String) :
    (verifyRequiredEnvVars errString env required).err = none ↔
      (∀ k ∈ required, GetString env k ≠ "") ∧
      (GetString env HoustonAPIKey ≠ "" ∨ GetString env HoustonUserName ≠ "") := by
  have hreq := requiredErrs_length_eq_zero errString env required []
  simp only [List.length_nil, true_and] at hreq
  simp only [verifyRequiredEnvVars, length_eq_zero_iff_empty]
  by_cases hk : GetString env HoustonAPIKey = "" ∧ GetString env HoustonUserName = ""
  · simp [hk]
  · have hk' : GetString env HoustonAPIKey ≠ "" ∨ GetString env HoustonUserName ≠ "" := by
      by_contra hcon
      push_neg at hcon
      exact hk hcon
    simp only [hk, if_false, hk', and_true]
    rw [← hreq]
    by_cases hl : (requiredErrs errString env [] required).length = 0 <;> simp [hl]

/-- The three consumer settings have no default: when the environment variable is unset
or empty, the setting resolves to the empty string. -/
theorem getString_of_unset (env : Environ) (k : String)
    (hk : k ∈ [BootstrapServers, KafkaGroupID, KafkaIngestionTopic])
    (h : env.lookup (Prefix ++ "_" ++ k) = none ∨ env.lookup (Prefix ++ "_" ++ k) = some "") :
    GetString env k = "" := by
  have hd : setDefaults.lookup k = none := by
    simp only [List.mem_cons, List.mem_singleton, List.not_mem_nil, or_false] at hk
    rcases hk with rfl | rfl | rfl <;> decide
  rcases h with h | h <;> simp [GetString, h, hd]

/-- C8: the package variable `requiredEnvs` is its initial value followed by whatever
earlier calls of `Initalize` appended (`extra`).  For every environment, a `nil` result of
`verifyRequiredEnvVars` implies that BOOTSTRAP_SERVERS, KAFKA_GROUP_ID and
KAFKA_INGESTION_TOPIC resolve to non-empty strings.  Conversely, if one of the three
resolves to the empty string (as it does when its environment variable is unset or
empty), `verifyRequiredEnvVars` returns an error and `Initalize` exits with code 1; so a
completed `Initalize` also implies the three are non-empty. -/
theorem verify_enforces_consumer_settings (errString : String → String → String)
    (env : Environ) (extra : List String) (debug : Bool) (opts : InitOptions) :
    ((verifyRequiredEnvVars errString env (requiredEnvs ++ extra)).err = none →
      GetString env BootstrapServers ≠ "" ∧ GetString env KafkaGroupID ≠ "" ∧
        GetString env KafkaIngestionTopic ≠ "") ∧
    (∀ k ∈ [BootstrapServers, KafkaGroupID, KafkaIngestionTopic], GetString env k = "" →
      (verifyRequiredEnvVars errString env (requiredEnvs ++ extra)).err ≠ none ∧
      ∃ e, Initalize errString env { requiredEnvs := requiredEnvs ++ extra, debug := debug }
        opts = InitOutcome.osExit 1 e) ∧
    (∀ k ∈ [BootstrapServers, KafkaGroupID, KafkaIngestionTopic],
      (env.lookup (Prefix ++ "_" ++ k) = none ∨ env.lookup (Prefix ++ "_" ++ k) = some "") →
      GetString env k = "") ∧
    (∀ st', Initalize errString env { requiredEnvs := requiredEnvs ++ extra, debug := debug }
        opts = InitOutcome.completed st' →
      GetString env BootstrapServers ≠ "" ∧ GetString env KafkaGroupID ≠ "" ∧
        GetString env KafkaIngestionTopic ≠ "") := by
  have hmem : ∀ k ∈ [BootstrapServers, KafkaGroupID, KafkaIngestionTopic],
      k ∈ requiredEnvs := by
    intro k hk
    simp only [List.mem_cons, List.mem_singleton, List.not_mem_nil, or_false] at hk
    rcases hk with rfl | rfl | rfl <;> simp [requiredEnvs]
  have key : ∀ required : List String, (∀ k ∈ requiredEnvs, k ∈ required) →
      (verifyRequiredEnvVars errString env required).err = none →
      ∀ k ∈ [BootstrapServers, KafkaGroupID, KafkaIngestionTopic], GetString env k ≠ "" := by
    intro required hsub hnone k hk
    exact ((verify_err_eq_none_iff errString env required).mp hnone).1 k (hsub k (hmem k hk))
  have three : (∀ k ∈ [BootstrapServers, KafkaGroupID, KafkaIngestionTopic],
      GetString env k ≠ "") →
      GetString env BootstrapServers ≠ "" ∧ GetString env KafkaGroupID ≠ "" ∧
        GetString env KafkaIngestionTopic ≠ "" := by
    intro h
    exact ⟨h _ (by simp), h _ (by simp), h _ (by simp)⟩
  have hreq : ∀ k ∈ requiredEnvs, k ∈ requiredEnvs ++ extra :=
    fun k hk => List.mem_append_left _ hk
  have hreq' : ∀ k ∈ requiredEnvs,
      k ∈ (if opts.EnableRetry = true then (requiredEnvs ++ extra) ++ retryRequiredEnvs
        else requiredEnvs ++ extra) := by
    intro k hk
    split
    · exact List.mem_append_left _ (hreq k hk)
    · exact hreq k hk
  refine ⟨fun h => three (key _ hreq h), ?_, fun k hk h => getString_of_unset env k hk h, ?_⟩
  · intro k hk hempty
    constructor
    · intro hnone
      exact key _ hreq hnone k hk hempty
    · cases hv : (verifyRequiredEnvVars errString env
          (if opts.EnableRetry = true then (requiredEnvs ++ extra) ++ retryRequiredEnvs
            else requiredEnvs ++ extra)).err with
      | none => exact absurd hempty (key _ hreq' hv k hk)
      | some e =>
          refine ⟨e, ?_⟩
          simp only [Initalize, hv]
  · intro st' hdone
    cases hv : (verifyRequiredEnvVars errString env
        (if opts.EnableRetry = true then (requiredEnvs ++ extra) ++ retryRequiredEnvs
          else requiredEnvs ++ extra)).err with
    | none => exact three (key _ hreq' hv)
    | some e =>
        simp only [Initalize, hv] at hdone
        cases hdone

/-- An instance of C8: in the complete environment, at program start, the check passes
and the three consumer settings are non-empty. -/
theorem verify_enforces_consumer_settings_witness :
    GetString completeEnv BootstrapServers ≠ "" ∧ GetString completeEnv KafkaGroupID ≠ "" ∧
      GetString completeEnv KafkaIngestionTopic ≠ "" :=
  (verify_enforces_consumer_settings sampleErrString completeEnv [] false
    { EnableRetry := false }).1 (by decide)

/-- C9, the code at the failing input: every entry of `requiredEnvs` is non-empty, the
API key is empty, the user name is `admin`, the password is empty, and yet
`verifyRequiredEnvVars` returns `nil` and `Initalize` completes. -/
theorem verify_accepts_user_without_password :
    (∀ k ∈ requiredEnvs, GetString userWithoutPasswordEnv k ≠ "") ∧
    GetString userWithoutPasswordEnv HoustonAPIKey = "" ∧
    GetString userWithoutPasswordEnv HoustonUserName = "admin" ∧
    GetString userWithoutPasswordEnv HoustonPassword = "" ∧
    (verifyRequiredEnvVars sampleErrString userWithoutPasswordEnv requiredEnvs).err = none ∧
    Initalize sampleErrString userWithoutPasswordEnv initialState { EnableRetry := false } =
      InitOutcome.completed { requiredEnvs := requiredEnvs, debug := false } := by
  decide

end EventRouter.Config
